import Mathlib

/-!
# Verification of the WAD loader (`src/wad.rs`)

A shallow embedding of the directory-walking loop of `Wad::from_file`.
The file-level I/O (opening the file, seeking, reading the raw bytes) is
abstracted away: the loop's input is the list of directory records, each
already carrying the decoded UTF-8 name (before uppercasing) and the lump's
payload bytes.  Everything the loop does with a record — uppercasing the
name, classifying it, feeding it to the map-assembler state machine — is
translated directly from the source.

Bytes are modelled as `Nat`, file offsets (`i32` in the source) as `Int`.
Rust's `String::to_uppercase` is modelled by `upperName` (they agree on
ASCII, and every name the classifier recognises is ASCII).
The `HashMap<LumpKind, Lump>` accumulator is modelled as a total function
`LumpKind → Option Lump`; `.unwrap()` on a removed component is modelled as
a distinguished `unwrapPanic` outcome so that its unreachability is provable
rather than assumed.
-/

namespace DoomMapStats

/-- The classification tag of a lump (`enum LumpKind` in `src/wad.rs`). -/
inductive LumpKind where
  | things
  | linedefs
  | sidedefs
  | vertexes
  | segs
  | subsectors
  | nodes
  | sectors
  | reject
  | blockmap
  | behavior
  | scripts
  | other
  deriving DecidableEq, Repr

/-- `struct Header` : magic id bytes, directory count, directory pointer. -/
structure Header where
  id : List Nat
  dir_ct : Int
  dir_ptr : Int
  deriving DecidableEq, Repr

/-- One directory record as the loop sees it: the record's file offset
(`raw_lump.ptr`), the decoded (not yet uppercased) name, and the `size`
payload bytes read from `raw_lump.ptr`. -/
structure DirEntry where
  ptr : Int
  name : String
  data : List Nat
  deriving DecidableEq, Repr

/-- `struct Lump` : uppercased name, owned data bytes, classification. -/
structure Lump where
  name : String
  data : List Nat
  kind : LumpKind
  deriving DecidableEq, Repr

/-- `struct Map` : the nine required component lumps plus three optional
ones, and the map's name. -/
structure Map where
  name : String
  things : Lump
  linedefs : Lump
  sidedefs : Lump
  vertexes : Lump
  segs : Lump
  subsectors : Lump
  nodes : Lump
  sectors : Lump
  reject : Option Lump
  blockmap : Lump
  behavior : Option Lump
  scripts : Option Lump
  deriving DecidableEq, Repr

/-- `REQUIRED_MAP_COMPONENTS` from `src/wad.rs`. -/
def REQUIRED_MAP_COMPONENTS : List LumpKind :=
  [.things, .linedefs, .sidedefs, .vertexes, .segs, .subsectors, .nodes,
   .sectors, .blockmap]

/-- `OPTIONAL_MAP_COMPONENTS` from `src/wad.rs`. -/
def OPTIONAL_MAP_COMPONENTS : List LumpKind :=
  [.reject, .behavior, .scripts]

/-- Every constructor of `LumpKind`, used to model `HashMap::is_empty` on
the accumulator (the accumulator only ever holds `LumpKind` keys). -/
def allKinds : List LumpKind :=
  [.things, .linedefs, .sidedefs, .vertexes, .segs, .subsectors, .nodes,
   .sectors, .reject, .blockmap, .behavior, .scripts, .other]

/-- Rust's `String::to_uppercase` (they agree on ASCII input, and every name
the classifier recognises is ASCII), written as a structural map over the
string's characters. -/
def upperName (s : String) : String :=
  String.mk (s.data.map Char.toUpper)

/-- The name-to-kind classification (`match lump.name.as_str()` in
`Wad::from_file`); the argument is the already-uppercased name. -/
def classify (s : String) : LumpKind :=
  if s = "THINGS" then .things
  else if s = "LINEDEFS" then .linedefs
  else if s = "SIDEDEFS" then .sidedefs
  else if s = "VERTEXES" then .vertexes
  else if s = "SEGS" then .segs
  else if s = "SSECTORS" then .subsectors
  else if s = "NODES" then .nodes
  else if s = "SECTORS" then .sectors
  else if s = "REJECT" then .reject
  else if s = "BLOCKMAP" then .blockmap
  else if s = "BEHAVIOR" then .behavior
  else if s = "SCRIPTS" then .scripts
  else .other

/-- The kind a directory entry classifies to. -/
def entryKind (e : DirEntry) : LumpKind :=
  classify (upperName e.name)

/-- The `Lump` value built for a directory entry (name uppercased, data as
read, kind from classification). -/
def entryLump (e : DirEntry) : Lump :=
  ⟨upperName e.name, e.data, entryKind e⟩

/-- The 4-byte MIDI tag `b"MThd"`. -/
def mthdTag : List Nat := [77, 84, 104, 100]

/-- The 4-byte MUS tag `b"MUS\x1A"`. -/
def musTag : List Nat := [77, 85, 83, 26]

/-- The music-header check: the lump is at least 4 bytes long and its first
4 bytes are one of the two recognised tags. -/
def isMusicData (data : List Nat) : Prop :=
  4 ≤ data.length ∧ (data.take 4 = mthdTag ∨ data.take 4 = musTag)

instance (data : List Nat) : Decidable (isMusicData data) := by
  unfold isMusicData; infer_instance

/-- `struct Wad` : the aggregate built by the loader. `textures: [Option<Lump>; 2]`
and `demos: [Option<Lump>; 3]` are modelled as tuples. -/
structure Wad where
  header : Header
  lumps : List Lump
  maps : List Map
  sounds : List Lump
  music : List Lump
  playpal : Option Lump
  colormap : Option Lump
  endoom : Option Lump
  textures : Option Lump × Option Lump
  demos : Option Lump × Option Lump × Option Lump
  deriving DecidableEq, Repr

/-- `Wad::new` : every collection starts empty, every slot `None`. -/
def Wad.new (h : Header) : Wad :=
  { header := h
    lumps := []
    maps := []
    sounds := []
    music := []
    playpal := none
    colormap := none
    endoom := none
    textures := (none, none)
    demos := (none, none, none) }

/-- The mutable state threaded through the directory loop: the partially
built `Wad`, the `possible_map_name` string, and the `map_components`
accumulator. -/
structure LoadState where
  wad : Wad
  possible_map_name : String
  map_components : LumpKind → Option Lump

/-- Loop state at entry: fresh `Wad`, empty pending name, empty accumulator. -/
def initState (h : Header) : LoadState :=
  ⟨Wad.new h, "", fun _ => none⟩

/-- The load's abnormal outcomes.  `invalidLumpOrder` carries the record's
file offset and decoded uppercased name, as `Error::InvalidLumpOrder` does.
`unwrapPanic` models the `.unwrap()` calls on the removed required
components when a `Map` is pushed: in Rust a failing unwrap is a panic, not
an `Error`, and we prove this outcome unreachable. -/
inductive LoadError where
  | invalidLumpOrder (ptr : Int) (name : String)
  | unwrapPanic
  deriving DecidableEq, Repr

/-- Extraction of a completed `Map` from the accumulator (the block of
`map_components.remove(..).unwrap()` calls): `none` exactly when some
required component is missing and an unwrap would panic. -/
def buildMap (name : String) (mc : LumpKind → Option Lump) : Option Map :=
  match mc .things, mc .linedefs, mc .sidedefs, mc .vertexes, mc .segs,
      mc .subsectors, mc .nodes, mc .sectors, mc .blockmap with
  | some t, some ld, some sd, some v, some sg, some ss, some n, some sec,
      some b =>
    some ⟨name, t, ld, sd, v, sg, ss, n, sec, mc .reject, b, mc .behavior,
          mc .scripts⟩
  | _, _, _, _, _, _, _, _, _ => none

/-- One iteration of the directory loop (the body of
`for _ in 0..wad.header.dir_ct`), after the record has been read and its
name decoded: uppercase and classify the name, then run the assembler's
transition rules in the source's order. -/
def processLump (st : LoadState) (e : DirEntry) : Except LoadError LoadState :=
  if (st.map_components (entryKind e)).isSome then
    -- duplicate component before the set is flushed
    .error (.invalidLumpOrder e.ptr (upperName e.name))
  else if entryKind e ∈ REQUIRED_MAP_COMPONENTS ∨
      entryKind e ∈ OPTIONAL_MAP_COMPONENTS then
    -- accumulate a map component
    .ok { st with
          map_components := fun k =>
            if k = entryKind e then some (entryLump e)
            else st.map_components k }
  else if ∀ c ∈ REQUIRED_MAP_COMPONENTS, (st.map_components c).isSome then
    -- all nine required components present: emit the map; the incoming
    -- lump's name becomes the pending name for the next map
    match buildMap st.possible_map_name st.map_components with
    | some m =>
      .ok { wad := { st.wad with maps := st.wad.maps ++ [m] }
            possible_map_name := upperName e.name
            -- remove(..) took out the twelve component kinds
            map_components := fun k =>
              if k = LumpKind.other then st.map_components LumpKind.other
              else none }
    | none => .error .unwrapPanic
  else if ¬ ∀ k ∈ allKinds, st.map_components k = none then
    -- a foreign lump interrupted an in-progress map
    .error (.invalidLumpOrder e.ptr (upperName e.name))
  else if isMusicData e.data then
    .ok { st with
          wad := { st.wad with music := st.wad.music ++ [entryLump e] } }
  else
    -- marker / ordinary lump: its name becomes the pending map name
    .ok { st with possible_map_name := upperName e.name }

/-- The whole directory loop: process the records in order, aborting on the
first error (`return Err(..)` in the source). -/
def processList (st : LoadState) : List DirEntry → Except LoadError LoadState
  | [] => .ok st
  | e :: rest =>
    match processLump st e with
    | .error err => .error err
    | .ok st' => processList st' rest

/-- `Wad::from_file` from the point where the header has been read: walk the
directory records and return the finished `Wad`. -/
def loadDirectory (h : Header) (entries : List DirEntry) : Except LoadError Wad :=
  (processList (initState h) entries).map (fun st => st.wad)

/-- `b"IWAD"`. -/
def iwadId : List Nat := [73, 87, 65, 68]

/-- `b"PWAD"`. -/
def pwadId : List Nat := [80, 87, 65, 68]

/-- A header used for the concrete test directories below. -/
def sampleHeader : Header := ⟨iwadId, 0, 12⟩

/-- Nine directory records covering the nine required component kinds once
each, at consecutive offsets starting at `off`, all with empty data. -/
def requiredRun (off : Int) : List DirEntry :=
  [⟨off, "THINGS", []⟩, ⟨off + 1, "LINEDEFS", []⟩, ⟨off + 2, "SIDEDEFS", []⟩,
   ⟨off + 3, "VERTEXES", []⟩, ⟨off + 4, "SEGS", []⟩, ⟨off + 5, "SSECTORS", []⟩,
   ⟨off + 6, "NODES", []⟩, ⟨off + 7, "SECTORS", []⟩, ⟨off + 8, "BLOCKMAP", []⟩]

/-- The loop state reached after processing `entries` (meaningful when the
processing succeeds); used to name concrete intermediate states. -/
def stateAfter (h : Header) (entries : List DirEntry) : LoadState :=
  match processList (initState h) entries with
  | .ok st => st
  | .error _ => initState h

/-- `a` is one full sequence of the nine required component kinds: its
records classify to exactly the nine required kinds, once each, in some
order. -/
def FullRequiredRun (a : List DirEntry) : Prop :=
  List.Perm (a.map entryKind) REQUIRED_MAP_COMPONENTS

instance (a : List DirEntry) : Decidable (FullRequiredRun a) := by
  unfold FullRequiredRun; infer_instance

/-- A directory with a named map, a trailing marker and a MUS music lump;
used to witness C9. -/
def c9Dir : List DirEntry :=
  ⟨0, "E1M1", []⟩ :: requiredRun 1 ++
    [⟨10, "E1M2", []⟩, ⟨11, "D_E1M1", [77, 85, 83, 26]⟩]

/-- A marker followed by a full required run; used to witness C4. -/
def c4Pre : List DirEntry := ⟨0, "E1M1", []⟩ :: requiredRun 1

/-- A marker followed by a full required run; used to witness C5. -/
def c5Pre : List DirEntry := ⟨0, "MARKA", []⟩ :: requiredRun 1

/-- A directory whose `THINGS` lump's data starts with the MIDI music tag,
followed by the remaining required components and a marker; used to refute
C3's "regardless of its name". -/
def musicThingsDir : List DirEntry :=
  [⟨0, "THINGS", [77, 84, 104, 100]⟩, ⟨1, "LINEDEFS", []⟩,
   ⟨2, "SIDEDEFS", []⟩, ⟨3, "VERTEXES", []⟩, ⟨4, "SEGS", []⟩,
   ⟨5, "SSECTORS", []⟩, ⟨6, "NODES", []⟩, ⟨7, "SECTORS", []⟩,
   ⟨8, "BLOCKMAP", []⟩, ⟨9, "M1", []⟩]

/-- The parts of the loop state no transition ever changes (header, flat
lump list, sounds, singleton slots), plus: no `other`-kind key ever enters
the accumulator. -/
def StepPreserved (st st' : LoadState) : Prop :=
  st'.wad.header = st.wad.header ∧
  st'.wad.lumps = st.wad.lumps ∧
  st'.wad.sounds = st.wad.sounds ∧
  st'.wad.playpal = st.wad.playpal ∧
  st'.wad.colormap = st.wad.colormap ∧
  st'.wad.endoom = st.wad.endoom ∧
  st'.wad.textures = st.wad.textures ∧
  st'.wad.demos = st.wad.demos ∧
  (st.map_components .other = none → st'.map_components .other = none)

/-! ## Helper lemmas -/

theorem allKinds_complete (k : LumpKind) : k ∈ allKinds := by
  cases k <;> simp [allKinds]

theorem other_not_required : LumpKind.other ∉ REQUIRED_MAP_COMPONENTS := by decide

theorem other_not_optional : LumpKind.other ∉ OPTIONAL_MAP_COMPONENTS := by decide

theorem processList_append (a b : List DirEntry) (st : LoadState) :
    processList st (a ++ b) =
      match processList st a with
      | .error err => .error err
      | .ok st' => processList st' b := by
  induction a generalizing st with
  | nil => rfl
  | cons e rest ih =>
    simp only [List.cons_append, processList]
    cases processLump st e with
    | error err => rfl
    | ok st' => exact ih st'

theorem processLump_dup (st : LoadState) (e : DirEntry)
    (h : (st.map_components (entryKind e)).isSome) :
    processLump st e = .error (.invalidLumpOrder e.ptr (upperName e.name)) := by
  simp only [processLump]
  rw [if_pos h]

theorem processLump_insert (st : LoadState) (e : DirEntry)
    (h1 : st.map_components (entryKind e) = none)
    (h2 : entryKind e ∈ REQUIRED_MAP_COMPONENTS ∨
      entryKind e ∈ OPTIONAL_MAP_COMPONENTS) :
    processLump st e = .ok { st with
      map_components := fun k =>
        if k = entryKind e then some (entryLump e)
        else st.map_components k } := by
  simp only [processLump, h1]
  rw [if_neg (by simp), if_pos h2]

theorem buildMap_spec (name : String) (mc : LumpKind → Option Lump)
    (h : ∀ c ∈ REQUIRED_MAP_COMPONENTS, (mc c).isSome) :
    ∃ m, buildMap name mc = some m ∧ m.name = name ∧
      some m.things = mc .things ∧ some m.linedefs = mc .linedefs ∧
      some m.sidedefs = mc .sidedefs ∧ some m.vertexes = mc .vertexes ∧
      some m.segs = mc .segs ∧ some m.subsectors = mc .subsectors ∧
      some m.nodes = mc .nodes ∧ some m.sectors = mc .sectors ∧
      m.reject = mc .reject ∧ some m.blockmap = mc .blockmap ∧
      m.behavior = mc .behavior ∧ m.scripts = mc .scripts := by
  obtain ⟨t, ht⟩ := Option.isSome_iff_exists.mp (h .things (by decide))
  obtain ⟨ld, hld⟩ := Option.isSome_iff_exists.mp (h .linedefs (by decide))
  obtain ⟨sd, hsd⟩ := Option.isSome_iff_exists.mp (h .sidedefs (by decide))
  obtain ⟨v, hv⟩ := Option.isSome_iff_exists.mp (h .vertexes (by decide))
  obtain ⟨sg, hsg⟩ := Option.isSome_iff_exists.mp (h .segs (by decide))
  obtain ⟨ss, hss⟩ := Option.isSome_iff_exists.mp (h .subsectors (by decide))
  obtain ⟨n, hn⟩ := Option.isSome_iff_exists.mp (h .nodes (by decide))
  obtain ⟨sec, hsec⟩ := Option.isSome_iff_exists.mp (h .sectors (by decide))
  obtain ⟨b, hb⟩ := Option.isSome_iff_exists.mp (h .blockmap (by decide))
  refine ⟨⟨name, t, ld, sd, v, sg, ss, n, sec, mc .reject, b, mc .behavior,
    mc .scripts⟩, ?_, rfl, ht.symm, hld.symm, hsd.symm, hv.symm, hsg.symm,
    hss.symm, hn.symm, hsec.symm, rfl, hb.symm, rfl, rfl⟩
  simp only [buildMap, ht, hld, hsd, hv, hsg, hss, hn, hsec, hb]

theorem processLump_emit (st : LoadState) (e : DirEntry) (m : Map)
    (hother : st.map_components .other = none)
    (hkind : entryKind e = .other)
    (hfull : ∀ c ∈ REQUIRED_MAP_COMPONENTS, (st.map_components c).isSome)
    (hm : buildMap st.possible_map_name st.map_components = some m) :
    processLump st e = .ok
      { wad := { st.wad with maps := st.wad.maps ++ [m] }
        possible_map_name := upperName e.name
        map_components := fun k =>
          if k = LumpKind.other then st.map_components LumpKind.other
          else none } := by
  simp only [processLump, hkind, hother]
  rw [if_neg (by simp), if_neg (by decide), if_pos hfull, hm]

theorem processLump_interrupt (st : LoadState) (e : DirEntry)
    (hkind : entryKind e = .other)
    (hnotfull : ¬ ∀ c ∈ REQUIRED_MAP_COMPONENTS, (st.map_components c).isSome)
    (hnonempty : ¬ ∀ k ∈ allKinds, st.map_components k = none) :
    processLump st e = .error (.invalidLumpOrder e.ptr (upperName e.name)) := by
  by_cases hdup : (st.map_components (entryKind e)).isSome
  · exact processLump_dup st e hdup
  · simp only [processLump, hkind] at hdup ⊢
    rw [if_neg hdup, if_neg (by decide), if_neg hnotfull, if_pos hnonempty]

theorem processLump_music (st : LoadState) (e : DirEntry)
    (hkind : entryKind e = .other)
    (hempty : ∀ k ∈ allKinds, st.map_components k = none)
    (hmusic : isMusicData e.data) :
    processLump st e = .ok { st with
      wad := { st.wad with music := st.wad.music ++ [entryLump e] } } := by
  have hother : st.map_components .other = none :=
    hempty _ (allKinds_complete _)
  have hnotfull : ¬ ∀ c ∈ REQUIRED_MAP_COMPONENTS,
      (st.map_components c).isSome := by
    intro h
    have := h .things (by decide)
    rw [hempty .things (allKinds_complete _)] at this
    simp at this
  simp only [processLump, hkind, hother]
  rw [if_neg (by simp), if_neg (by decide), if_neg hnotfull,
    if_neg (not_not_intro hempty), if_pos hmusic]

theorem processLump_marker (st : LoadState) (e : DirEntry)
    (hkind : entryKind e = .other)
    (hempty : ∀ k ∈ allKinds, st.map_components k = none)
    (hmusic : ¬ isMusicData e.data) :
    processLump st e = .ok { st with
      possible_map_name := upperName e.name } := by
  have hother : st.map_components .other = none :=
    hempty _ (allKinds_complete _)
  have hnotfull : ¬ ∀ c ∈ REQUIRED_MAP_COMPONENTS,
      (st.map_components c).isSome := by
    intro h
    have := h .things (by decide)
    rw [hempty .things (allKinds_complete _)] at this
    simp at this
  simp only [processLump, hkind, hother]
  rw [if_neg (by simp), if_neg (by decide), if_neg hnotfull,
    if_neg (not_not_intro hempty), if_neg hmusic]

theorem stepPreserved_trans {st st1 st2 : LoadState}
    (h1 : StepPreserved st st1) (h2 : StepPreserved st1 st2) :
    StepPreserved st st2 :=
  ⟨h2.1.trans h1.1, h2.2.1.trans h1.2.1, h2.2.2.1.trans h1.2.2.1,
   h2.2.2.2.1.trans h1.2.2.2.1, h2.2.2.2.2.1.trans h1.2.2.2.2.1,
   h2.2.2.2.2.2.1.trans h1.2.2.2.2.2.1,
   h2.2.2.2.2.2.2.1.trans h1.2.2.2.2.2.2.1,
   h2.2.2.2.2.2.2.2.1.trans h1.2.2.2.2.2.2.2.1,
   fun h => h2.2.2.2.2.2.2.2.2 (h1.2.2.2.2.2.2.2.2 h)⟩

theorem processLump_preserved {st st' : LoadState} {e : DirEntry}
    (h : processLump st e = .ok st') : StepPreserved st st' := by
  unfold processLump at h
  split_ifs at h with hdup hcomp hfull hnonempty hmusic
  · -- component accumulation
    obtain rfl := Except.ok.inj h
    refine ⟨rfl, rfl, rfl, rfl, rfl, rfl, rfl, rfl, fun ho => ?_⟩
    have hne : ¬ (LumpKind.other = entryKind e) := fun hk =>
      absurd hcomp (by rw [← hk]; decide)
    simp [hne, ho]
  · -- map emission: the match on buildMap
    split at h
    · obtain rfl := Except.ok.inj h
      exact ⟨rfl, rfl, rfl, rfl, rfl, rfl, rfl, rfl, fun ho => by simp [ho]⟩
    · exact Except.noConfusion h
  · -- music branch
    obtain rfl := Except.ok.inj h
    exact ⟨rfl, rfl, rfl, rfl, rfl, rfl, rfl, rfl, fun ho => ho⟩
  · -- marker branch
    obtain rfl := Except.ok.inj h
    exact ⟨rfl, rfl, rfl, rfl, rfl, rfl, rfl, rfl, fun ho => ho⟩

theorem processList_preserved {entries : List DirEntry} :
    ∀ {st st' : LoadState}, processList st entries = .ok st' →
      StepPreserved st st' := by
  induction entries with
  | nil =>
    intro st st' h
    obtain rfl := Except.ok.inj h
    exact ⟨rfl, rfl, rfl, rfl, rfl, rfl, rfl, rfl, fun ho => ho⟩
  | cons e rest ih =>
    intro st st' h
    simp only [processList] at h
    cases he : processLump st e with
    | error err => rw [he] at h; exact Except.noConfusion h
    | ok st1 =>
      rw [he] at h
      exact stepPreserved_trans (processLump_preserved he) (ih h)

theorem processList_components (a : List DirEntry) :
    ∀ st : LoadState, (a.map entryKind).Nodup →
    (∀ e ∈ a, entryKind e ∈ REQUIRED_MAP_COMPONENTS ∨
      entryKind e ∈ OPTIONAL_MAP_COMPONENTS) →
    (∀ e ∈ a, st.map_components (entryKind e) = none) →
    ∃ mc', processList st a = .ok ⟨st.wad, st.possible_map_name, mc'⟩ ∧
      ∀ k, (mc' k).isSome ↔
        (k ∈ a.map entryKind ∨ (st.map_components k).isSome) := by
  induction a with
  | nil =>
    intro st _ _ _
    exact ⟨st.map_components, rfl, fun k => by simp⟩
  | cons e rest ih =>
    intro st hnd hcomp hfresh
    have hmem : e ∈ e :: rest := List.mem_cons_self e rest
    have hk_none : st.map_components (entryKind e) = none := hfresh e hmem
    have hstep := processLump_insert st e hk_none (hcomp e hmem)
    have hnd' : (rest.map entryKind).Nodup := (List.nodup_cons.mp (by
      simpa using hnd)).2
    have hhead : entryKind e ∉ rest.map entryKind := (List.nodup_cons.mp (by
      simpa using hnd)).1
    obtain ⟨mc', hrun, hiff⟩ := ih
      { st with map_components := fun k =>
          if k = entryKind e then some (entryLump e)
          else st.map_components k }
      hnd'
      (fun e' he' => hcomp e' (List.mem_cons_of_mem e he'))
      (fun e' he' => by
        have hne : entryKind e' ≠ entryKind e := fun hEq => by
          exact hhead (hEq ▸ List.mem_map_of_mem entryKind he')
        simpa [hne] using hfresh e' (List.mem_cons_of_mem e he'))
    refine ⟨mc', ?_, ?_⟩
    · rw [processList, hstep]
      exact hrun
    · intro k
      rw [hiff k]
      by_cases hk : k = entryKind e <;> simp [hk, or_assoc]

theorem processLump_no_panic (st : LoadState) (e : DirEntry) :
    processLump st e ≠ .error .unwrapPanic := by
  unfold processLump
  split_ifs with hdup hcomp hfull hnonempty hmusic
  · simp
  · simp
  · obtain ⟨m, hm, _⟩ := buildMap_spec st.possible_map_name
      st.map_components hfull
    rw [hm]
    simp
  · simp
  · simp
  · simp

theorem processList_no_panic (entries : List DirEntry) :
    ∀ st : LoadState, processList st entries ≠ .error .unwrapPanic := by
  induction entries with
  | nil => intro st h; exact Except.noConfusion h
  | cons e rest ih =>
    intro st
    simp only [processList]
    cases he : processLump st e with
    | error err =>
      intro hcontra
      exact processLump_no_panic st e (he.trans hcontra)
    | ok st1 => exact ih st1

/-! ## The claims -/

/-- C1 counterexample: two back-to-back full required runs with no
intervening non-component lump do NOT yield two maps — the load fails at
the first record of the second run, because the accumulator is only ever
flushed by a non-component lump. -/
theorem c1_counterexample :
    loadDirectory sampleHeader (requiredRun 0 ++ requiredRun 9) =
      .error (.invalidLumpOrder 9 "THINGS") := by rfl

/-- C1 amended: for two back-to-back full required runs with no intervening
non-component lump, the load fails with the invalid-lump-order error
carrying the offset and decoded name of the first record of the second
run. -/
theorem c1_back_to_back_runs_fail (h : Header) (a : List DirEntry)
    (e : DirEntry) (b : List DirEntry)
    (ha : FullRequiredRun a) (hb : FullRequiredRun (e :: b)) :
    loadDirectory h (a ++ e :: b) =
      .error (.invalidLumpOrder e.ptr (upperName e.name)) := by
  have ha' : List.Perm (a.map entryKind) REQUIRED_MAP_COMPONENTS := ha
  have hb' : List.Perm ((e :: b).map entryKind) REQUIRED_MAP_COMPONENTS := hb
  have hnd : (a.map entryKind).Nodup := ha'.nodup_iff.mpr (by decide)
  have hcomp : ∀ e' ∈ a, entryKind e' ∈ REQUIRED_MAP_COMPONENTS ∨
      entryKind e' ∈ OPTIONAL_MAP_COMPONENTS := fun e' he' =>
    Or.inl (ha'.subset (List.mem_map_of_mem entryKind he'))
  obtain ⟨mc', hrun, hiff⟩ := processList_components a (initState h) hnd
    hcomp (fun e' he' => rfl)
  have hkmem : entryKind e ∈ REQUIRED_MAP_COMPONENTS := hb'.subset (by simp)
  have hdup : (mc' (entryKind e)).isSome :=
    (hiff _).mpr (Or.inl (ha'.mem_iff.mpr hkmem))
  have hstep := processLump_dup
    ⟨(initState h).wad, (initState h).possible_map_name, mc'⟩ e hdup
  unfold loadDirectory
  rw [processList_append, hrun]
  simp only [processList, hstep]
  rfl

/-- Witness for C1's amended theorem: the concrete back-to-back directory
of `c1_counterexample`. -/
theorem c1_witness :
    FullRequiredRun (requiredRun 0) ∧
    FullRequiredRun (⟨9, "THINGS", []⟩ ::
      [⟨10, "LINEDEFS", []⟩, ⟨11, "SIDEDEFS", []⟩, ⟨12, "VERTEXES", []⟩,
       ⟨13, "SEGS", []⟩, ⟨14, "SSECTORS", []⟩, ⟨15, "NODES", []⟩,
       ⟨16, "SECTORS", []⟩, ⟨17, "BLOCKMAP", []⟩]) ∧
    loadDirectory sampleHeader (requiredRun 0 ++ ⟨9, "THINGS", []⟩ ::
      [⟨10, "LINEDEFS", []⟩, ⟨11, "SIDEDEFS", []⟩, ⟨12, "VERTEXES", []⟩,
       ⟨13, "SEGS", []⟩, ⟨14, "SSECTORS", []⟩, ⟨15, "NODES", []⟩,
       ⟨16, "SECTORS", []⟩, ⟨17, "BLOCKMAP", []⟩]) =
      .error (.invalidLumpOrder 9 "THINGS") :=
  ⟨by decide, by decide,
    c1_back_to_back_runs_fail sampleHeader (requiredRun 0) ⟨9, "THINGS", []⟩
      [⟨10, "LINEDEFS", []⟩, ⟨11, "SIDEDEFS", []⟩, ⟨12, "VERTEXES", []⟩,
       ⟨13, "SEGS", []⟩, ⟨14, "SSECTORS", []⟩, ⟨15, "NODES", []⟩,
       ⟨16, "SECTORS", []⟩, ⟨17, "BLOCKMAP", []⟩]
      (by decide) (by decide)⟩

/-- C2 counterexample: a non-component, non-music lump arriving on an empty
accumulator is NOT retained in the flat lump list — the returned `Wad` is
exactly the pristine one, its flat lump list still empty. -/
theorem c2_counterexample :
    loadDirectory sampleHeader [⟨0, "FOO", []⟩] = .ok (Wad.new sampleHeader) ∧
    (Wad.new sampleHeader).lumps = [] :=
  ⟨by rfl, rfl⟩

/-- C2 amended: such a lump sets the pending marker name to its (decoded,
uppercased) name, but is retained nowhere — the `Wad` under construction,
its flat lump list included, is unchanged. -/
theorem c2_marker_sets_name_drops_lump (st : LoadState) (e : DirEntry)
    (hkind : entryKind e = .other)
    (hempty : ∀ k ∈ allKinds, st.map_components k = none)
    (hmusic : ¬ isMusicData e.data) :
    processLump st e = .ok { st with possible_map_name := upperName e.name } :=
  processLump_marker st e hkind hempty hmusic

/-- Witness for C2's amended theorem. -/
theorem c2_witness :
    entryKind ⟨0, "FOO", []⟩ = .other ∧
    (∀ k ∈ allKinds, (initState sampleHeader).map_components k = none) ∧
    ¬ isMusicData ([] : List Nat) ∧
    processLump (initState sampleHeader) ⟨0, "FOO", []⟩ =
      .ok { initState sampleHeader with possible_map_name := "FOO" } :=
  ⟨by decide, by decide, by decide,
    c2_marker_sets_name_drops_lump (initState sampleHeader) ⟨0, "FOO", []⟩
      (by decide) (by decide) (by decide)⟩

/-- C3 counterexample: a lump whose first four bytes are the MIDI tag but
whose name is `THINGS` is routed by its name — it ends up inside the
emitted map's `things` component and the music collection stays empty,
refuting "regardless of the lump's name". -/
theorem c3_counterexample :
    (loadDirectory sampleHeader musicThingsDir).map
      (fun w => (w.music, w.maps.map fun m => m.things.data)) =
      .ok ([], [mthdTag]) := by rfl

/-- C3 amended: a lump bearing a recognized music tag is moved into the
music collection (and never into the flat lump list, which is untouched)
when it classifies as a non-component kind and arrives while the
accumulator is empty. -/
theorem c3_music_lump_collected (st : LoadState) (e : DirEntry)
    (hkind : entryKind e = .other)
    (hempty : ∀ k ∈ allKinds, st.map_components k = none)
    (hmusic : isMusicData e.data) :
    processLump st e = .ok { st with
      wad := { st.wad with music := st.wad.music ++ [entryLump e] } } :=
  processLump_music st e hkind hempty hmusic

/-- Witness for C3's amended theorem: a MIDI lump named `D_E1M1`. -/
theorem c3_witness :
    entryKind ⟨0, "D_E1M1", [77, 84, 104, 100, 0]⟩ = .other ∧
    (∀ k ∈ allKinds, (initState sampleHeader).map_components k = none) ∧
    isMusicData [77, 84, 104, 100, 0] ∧
    processLump (initState sampleHeader) ⟨0, "D_E1M1", [77, 84, 104, 100, 0]⟩ =
      .ok { initState sampleHeader with
        wad := { (initState sampleHeader).wad with
          music := (initState sampleHeader).wad.music ++
            [entryLump ⟨0, "D_E1M1", [77, 84, 104, 100, 0]⟩] } } :=
  ⟨by decide, by decide, by decide,
    c3_music_lump_collected (initState sampleHeader)
      ⟨0, "D_E1M1", [77, 84, 104, 100, 0]⟩ (by decide) (by decide)
      (by decide)⟩

/-- C4: when all nine required kinds have accumulated and the next record
classifies as a non-component kind, the step emits exactly one completed
`Map` named by the pending marker name, built from the accumulator's
components, clears the accumulator completely, sets the pending name to
the incoming lump's own name, and retains the incoming lump in no
collection (the rest of the `Wad` is untouched). -/
theorem c4_completed_map_emitted (h : Header) (pre : List DirEntry)
    (st : LoadState) (e : DirEntry)
    (hpre : processList (initState h) pre = .ok st)
    (hfull : ∀ c ∈ REQUIRED_MAP_COMPONENTS, (st.map_components c).isSome)
    (hkind : entryKind e = .other) :
    ∃ m, processLump st e = .ok
        { wad := { st.wad with maps := st.wad.maps ++ [m] }
          possible_map_name := upperName e.name
          map_components := fun _ => none } ∧
      m.name = st.possible_map_name ∧
      some m.things = st.map_components .things ∧
      some m.linedefs = st.map_components .linedefs ∧
      some m.sidedefs = st.map_components .sidedefs ∧
      some m.vertexes = st.map_components .vertexes ∧
      some m.segs = st.map_components .segs ∧
      some m.subsectors = st.map_components .subsectors ∧
      some m.nodes = st.map_components .nodes ∧
      some m.sectors = st.map_components .sectors ∧
      m.reject = st.map_components .reject ∧
      some m.blockmap = st.map_components .blockmap ∧
      m.behavior = st.map_components .behavior ∧
      m.scripts = st.map_components .scripts := by
  have hother : st.map_components .other = none :=
    (processList_preserved hpre).2.2.2.2.2.2.2.2 rfl
  obtain ⟨m, hm, hname, h1, h2, h3, h4, h5, h6, h7, h8, h9, h10, h11, h12⟩ :=
    buildMap_spec st.possible_map_name st.map_components hfull
  refine ⟨m, ?_, hname, h1, h2, h3, h4, h5, h6, h7, h8, h9, h10, h11, h12⟩
  rw [processLump_emit st e m hother hkind hfull hm]
  have hfn : (fun k => if k = LumpKind.other
        then st.map_components LumpKind.other else none) =
      (fun _ : LumpKind => (none : Option Lump)) := by
    funext k
    by_cases hk : k = LumpKind.other
    · simp [hk, hother]
    · simp [hk]
  rw [hfn]

/-- Witness for C4: `E1M1`, nine components, then marker `E1M2`. -/
theorem c4_witness :
    processList (initState sampleHeader) c4Pre =
      .ok (stateAfter sampleHeader c4Pre) ∧
    (∀ c ∈ REQUIRED_MAP_COMPONENTS,
      ((stateAfter sampleHeader c4Pre).map_components c).isSome) ∧
    entryKind ⟨10, "E1M2", []⟩ = .other ∧
    (∃ m, processLump (stateAfter sampleHeader c4Pre) ⟨10, "E1M2", []⟩ = .ok
        { wad := { (stateAfter sampleHeader c4Pre).wad with
            maps := (stateAfter sampleHeader c4Pre).wad.maps ++ [m] }
          possible_map_name := upperName "E1M2"
          map_components := fun _ => none } ∧
      m.name = (stateAfter sampleHeader c4Pre).possible_map_name ∧
      some m.things = (stateAfter sampleHeader c4Pre).map_components .things ∧
      some m.linedefs =
        (stateAfter sampleHeader c4Pre).map_components .linedefs ∧
      some m.sidedefs =
        (stateAfter sampleHeader c4Pre).map_components .sidedefs ∧
      some m.vertexes =
        (stateAfter sampleHeader c4Pre).map_components .vertexes ∧
      some m.segs = (stateAfter sampleHeader c4Pre).map_components .segs ∧
      some m.subsectors =
        (stateAfter sampleHeader c4Pre).map_components .subsectors ∧
      some m.nodes = (stateAfter sampleHeader c4Pre).map_components .nodes ∧
      some m.sectors =
        (stateAfter sampleHeader c4Pre).map_components .sectors ∧
      m.reject = (stateAfter sampleHeader c4Pre).map_components .reject ∧
      some m.blockmap =
        (stateAfter sampleHeader c4Pre).map_components .blockmap ∧
      m.behavior = (stateAfter sampleHeader c4Pre).map_components .behavior ∧
      m.scripts = (stateAfter sampleHeader c4Pre).map_components .scripts) :=
  ⟨rfl, by decide, by decide,
    c4_completed_map_emitted sampleHeader c4Pre _ ⟨10, "E1M2", []⟩
      rfl (by decide) (by decide)⟩

/-- C5 counterexample: with directory `MARKA`, nine components, `MARKB`,
the emitted map is named `MARKA` (the marker that *preceded* its
components), not `MARKB` (the marker read after completion), refuting the
claim that the name comes from the next marker read after completion. -/
theorem c5_counterexample :
    (loadDirectory sampleHeader
        (⟨0, "MARKA", []⟩ :: requiredRun 1 ++ [⟨10, "MARKB", []⟩])).map
      (fun w => w.maps.map fun m => m.name) = .ok ["MARKA"] ∧
    ("MARKA" : String) ≠ "MARKB" :=
  ⟨by rfl, by decide⟩

/-- C5 amended: the emitted map's name is the pending name captured from
the most recent marker read *before* its components began; the flushing
lump's own name only becomes the pending name for the *next* map. -/
theorem c5_name_from_preceding_marker (h : Header) (pre : List DirEntry)
    (st : LoadState) (e : DirEntry)
    (hpre : processList (initState h) pre = .ok st)
    (hfull : ∀ c ∈ REQUIRED_MAP_COMPONENTS, (st.map_components c).isSome)
    (hkind : entryKind e = .other) :
    ∃ m st', processLump st e = .ok st' ∧
      st'.wad.maps = st.wad.maps ++ [m] ∧
      m.name = st.possible_map_name ∧
      st'.possible_map_name = upperName e.name := by
  have hother : st.map_components .other = none :=
    (processList_preserved hpre).2.2.2.2.2.2.2.2 rfl
  obtain ⟨m, hm, hname, -⟩ :=
    buildMap_spec st.possible_map_name st.map_components hfull
  exact ⟨m, _, processLump_emit st e m hother hkind hfull hm, rfl, hname, rfl⟩

/-- Witness for C5's amended theorem: `MARKA`, nine components, `MARKB`. -/
theorem c5_witness :
    processList (initState sampleHeader) c5Pre =
      .ok (stateAfter sampleHeader c5Pre) ∧
    (∀ c ∈ REQUIRED_MAP_COMPONENTS,
      ((stateAfter sampleHeader c5Pre).map_components c).isSome) ∧
    entryKind ⟨10, "MARKB", []⟩ = .other ∧
    (∃ m st', processLump (stateAfter sampleHeader c5Pre) ⟨10, "MARKB", []⟩ =
        .ok st' ∧
      st'.wad.maps = (stateAfter sampleHeader c5Pre).wad.maps ++ [m] ∧
      m.name = (stateAfter sampleHeader c5Pre).possible_map_name ∧
      st'.possible_map_name = upperName "MARKB") :=
  ⟨rfl, by decide, by decide,
    c5_name_from_preceding_marker sampleHeader c5Pre _ ⟨10, "MARKB", []⟩
      rfl (by decide) (by decide)⟩

/-- C6: a map-component kind (required or optional) recurring while that
kind is already in the accumulator makes the whole load fail with the
invalid-lump-order error carrying that record's offset and decoded name. -/
theorem c6_duplicate_component_fails (h : Header) (pre suf : List DirEntry)
    (e : DirEntry) (st : LoadState)
    (hpre : processList (initState h) pre = .ok st)
    (_hcomp : entryKind e ∈ REQUIRED_MAP_COMPONENTS ∨
      entryKind e ∈ OPTIONAL_MAP_COMPONENTS)
    (hdup : (st.map_components (entryKind e)).isSome) :
    loadDirectory h (pre ++ e :: suf) =
      .error (.invalidLumpOrder e.ptr (upperName e.name)) := by
  unfold loadDirectory
  rw [processList_append, hpre]
  simp only [processList, processLump_dup st e hdup]
  rfl

/-- Witness for C6: a second `THINGS` record (spelled in lower case to
exercise the uppercasing) arriving right after a first one. -/
theorem c6_witness :
    processList (initState sampleHeader) [⟨0, "THINGS", []⟩] =
      .ok (stateAfter sampleHeader [⟨0, "THINGS", []⟩]) ∧
    entryKind ⟨7, "things", []⟩ ∈ REQUIRED_MAP_COMPONENTS ∧
    ((stateAfter sampleHeader [⟨0, "THINGS", []⟩]).map_components
      (entryKind ⟨7, "things", []⟩)).isSome ∧
    loadDirectory sampleHeader [⟨0, "THINGS", []⟩, ⟨7, "things", []⟩] =
      .error (.invalidLumpOrder 7 "THINGS") :=
  ⟨rfl, by decide, by decide,
    c6_duplicate_component_fails sampleHeader [⟨0, "THINGS", []⟩] []
      ⟨7, "things", []⟩ _ rfl (Or.inl (by decide)) (by decide)⟩

/-- C7: a non-component lump arriving while the accumulator is non-empty
but not yet full makes the whole load fail with the invalid-lump-order
error carrying that record's offset and decoded name (so no partial `Wad`
is ever returned). -/
theorem c7_interrupted_map_fails (h : Header) (pre suf : List DirEntry)
    (e : DirEntry) (st : LoadState)
    (hpre : processList (initState h) pre = .ok st)
    (hkind : entryKind e = .other)
    (hnonempty : ¬ ∀ k ∈ allKinds, st.map_components k = none)
    (hnotfull : ¬ ∀ c ∈ REQUIRED_MAP_COMPONENTS,
      (st.map_components c).isSome) :
    loadDirectory h (pre ++ e :: suf) =
      .error (.invalidLumpOrder e.ptr (upperName e.name)) := by
  unfold loadDirectory
  rw [processList_append, hpre]
  simp only [processList, processLump_interrupt st e hkind hnotfull hnonempty]
  rfl

/-- Witness for C7: a foreign lump `FOO` arriving after only `THINGS`. -/
theorem c7_witness :
    processList (initState sampleHeader) [⟨0, "THINGS", []⟩] =
      .ok (stateAfter sampleHeader [⟨0, "THINGS", []⟩]) ∧
    entryKind ⟨1, "Foo", []⟩ = .other ∧
    (¬ ∀ k ∈ allKinds,
      (stateAfter sampleHeader [⟨0, "THINGS", []⟩]).map_components k = none) ∧
    (¬ ∀ c ∈ REQUIRED_MAP_COMPONENTS,
      ((stateAfter sampleHeader [⟨0, "THINGS", []⟩]).map_components
        c).isSome) ∧
    loadDirectory sampleHeader [⟨0, "THINGS", []⟩, ⟨1, "Foo", []⟩] =
      .error (.invalidLumpOrder 1 "FOO") :=
  ⟨rfl, by decide, by decide, by decide,
    c7_interrupted_map_fails sampleHeader [⟨0, "THINGS", []⟩] []
      ⟨1, "Foo", []⟩ _ rfl (by decide) (by decide) (by decide)⟩

/-- C8: a `Map` is only ever constructed with all nine required components
in hand, so the component extraction never hits its missing-value branch:
every load ends in a built `Wad` or in an invalid-lump-order error, never
in the `unwrapPanic` outcome.  (That the three optional components may be
absent is part of the `Map` type itself: `reject`, `behavior` and `scripts`
are its only `Option` fields.) -/
theorem c8_unwrap_never_panics (h : Header) (entries : List DirEntry) :
    (∃ w, loadDirectory h entries = .ok w) ∨
    (∃ p n, loadDirectory h entries = .error (.invalidLumpOrder p n)) := by
  unfold loadDirectory
  cases hres : processList (initState h) entries with
  | ok st => exact Or.inl ⟨st.wad, rfl⟩
  | error err =>
    cases err with
    | invalidLumpOrder p n => exact Or.inr ⟨p, n, rfl⟩
    | unwrapPanic => exact absurd hres (processList_no_panic entries _)

/-- C9: no lump is ever routed into a singleton resource slot: every
successful load returns a `Wad` whose palette, colormap, end-text, both
texture slots and all three demo slots are still empty. -/
theorem c9_singleton_slots_empty (h : Header) (entries : List DirEntry)
    (w : Wad) (hw : loadDirectory h entries = .ok w) :
    w.playpal = none ∧ w.colormap = none ∧ w.endoom = none ∧
    w.textures = (none, none) ∧ w.demos = (none, none, none) := by
  unfold loadDirectory at hw
  cases hres : processList (initState h) entries with
  | error err => rw [hres] at hw; exact Except.noConfusion hw
  | ok st =>
    rw [hres] at hw
    obtain rfl := Except.ok.inj hw
    have hp := processList_preserved hres
    exact ⟨hp.2.2.2.1, hp.2.2.2.2.1, hp.2.2.2.2.2.1,
      hp.2.2.2.2.2.2.1, hp.2.2.2.2.2.2.2.1⟩

/-- Witness for C9: a load with one map, one music lump and one marker. -/
theorem c9_witness :
    loadDirectory sampleHeader c9Dir = .ok (stateAfter sampleHeader c9Dir).wad ∧
    (stateAfter sampleHeader c9Dir).wad.playpal = none ∧
    (stateAfter sampleHeader c9Dir).wad.colormap = none ∧
    (stateAfter sampleHeader c9Dir).wad.endoom = none ∧
    (stateAfter sampleHeader c9Dir).wad.textures = (none, none) ∧
    (stateAfter sampleHeader c9Dir).wad.demos = (none, none, none) :=
  ⟨by rfl,
    c9_singleton_slots_empty sampleHeader c9Dir
      (stateAfter sampleHeader c9Dir).wad (by rfl)⟩

/-- C10: a directory that ends in a trailing run of (pairwise distinct,
not previously accumulated) component lumps loads successfully, and the
returned `Wad` is exactly the one already built before that run began:
the trailing components are silently discarded, neither emitted as a map
nor rejected. -/
theorem c10_trailing_components_discarded (h : Header)
    (pre a : List DirEntry) (st : LoadState)
    (hpre : processList (initState h) pre = .ok st)
    (hnd : (a.map entryKind).Nodup)
    (hcomp : ∀ e ∈ a, entryKind e ∈ REQUIRED_MAP_COMPONENTS ∨
      entryKind e ∈ OPTIONAL_MAP_COMPONENTS)
    (hfresh : ∀ e ∈ a, st.map_components (entryKind e) = none)
    (_hne : a ≠ []) :
    loadDirectory h (pre ++ a) = .ok st.wad := by
  obtain ⟨mc', hrun, _⟩ := processList_components a st hnd hcomp hfresh
  unfold loadDirectory
  rw [processList_append, hpre]
  simp only [hrun]
  rfl

/-- Witness for C10: all nine required kinds accumulate and the directory
ends; the result is the untouched fresh `Wad` (no map, no error). -/
theorem c10_witness :
    processList (initState sampleHeader) [] = .ok (initState sampleHeader) ∧
    ((requiredRun 0).map entryKind).Nodup ∧
    (∀ e ∈ requiredRun 0, entryKind e ∈ REQUIRED_MAP_COMPONENTS ∨
      entryKind e ∈ OPTIONAL_MAP_COMPONENTS) ∧
    (∀ e ∈ requiredRun 0,
      (initState sampleHeader).map_components (entryKind e) = none) ∧
    requiredRun 0 ≠ [] ∧
    loadDirectory sampleHeader ([] ++ requiredRun 0) =
      .ok (initState sampleHeader).wad :=
  ⟨rfl, by decide, by decide, by decide, by decide,
    c10_trailing_components_discarded sampleHeader [] (requiredRun 0) _
      rfl (by decide) (by decide) (by decide) (by decide)⟩

end DoomMapStats
